import Mathlib

/-!
# Dashboard API server (`apps/dashboard/api/cmd/server/main.go`)

A shallow embedding of the metrics collector, the power and node-identity
heuristics, the container action handler and the streaming loop, followed by
the properties established about them.

Conventions of the embedding.

* A Go `string` is its sequence of bytes (`GoString`); the string literals of
  the program are all ASCII and are written with `lit`.
* A Go call returning `(value, error)` whose error the source tests before it
  touches the value is an `Except GoError value`.  Where the source discards
  the error (`x, _ := f()`) and goes on to use the value, the outcome keeps
  both components, and a pointer value is an `Option` (`none` is `nil`).
* A run-time panic (nil dereference, index or slice bound) is the `error`
  side of `Except Panic`.
* No arithmetic is ever performed on a `float64`; the values are carried
  around unchanged.
-/

namespace Dashboard

/-! ## Base types -/

/-- A Go string: a sequence of bytes. -/
abbrev GoString := List Nat

/-- An ASCII string literal of the source, as its bytes. -/
def lit (s : String) : GoString := s.toList.map Char.toNat

/-- A Go `float64`: a finite value, or one of the non-finite ones. -/
inductive Float64 where
  | dec (q : ℚ)
  | nan
  | inf (negative : Bool)
  deriving DecidableEq

/-- The zero value of `float64`. -/
def Float64.zero : Float64 := .dec 0

/-- A Go `error` value; `msg` is what `err.Error()` returns. -/
structure GoError where
  msg : GoString
  deriving DecidableEq

/-- The run-time faults the embedded code can raise. -/
inductive Panic where
  | nilDereference
  | indexOutOfRange
  | sliceBoundsOutOfRange
  deriving DecidableEq

/-! ## The `strings` functions the program calls -/

/-- Model of `strings.Contains(s, substr)`: `substr` occurs in `s`. -/
def Contains : GoString → GoString → Bool
  | [], substr => substr.isPrefixOf []
  | b :: s, substr => substr.isPrefixOf (b :: s) || Contains s substr

/-- Model of `strings.TrimPrefix(s, p)`. -/
def TrimPrefix (s p : GoString) : GoString :=
  if p.isPrefixOf s then s.drop p.length else s

/-- Model of `strings.Split(s, sep)` for a one-byte separator. -/
def Split (s : GoString) (sep : Nat) : List GoString := s.splitOn sep

/-- The UTF-8 encodings of the runes for which `unicode.IsSpace` holds:
tab, line feed, vertical tab, form feed, carriage return, space, U+0085,
U+00A0, U+1680, U+2000 to U+200A, U+2028, U+2029, U+202F, U+205F, U+3000. -/
def spaceRunes : List GoString :=
  [[0x09], [0x0A], [0x0B], [0x0C], [0x0D], [0x20],
   [0xC2, 0x85], [0xC2, 0xA0],
   [0xE1, 0x9A, 0x80],
   [0xE2, 0x80, 0x80], [0xE2, 0x80, 0x81], [0xE2, 0x80, 0x82], [0xE2, 0x80, 0x83],
   [0xE2, 0x80, 0x84], [0xE2, 0x80, 0x85], [0xE2, 0x80, 0x86], [0xE2, 0x80, 0x87],
   [0xE2, 0x80, 0x88], [0xE2, 0x80, 0x89], [0xE2, 0x80, 0x8A],
   [0xE2, 0x80, 0xA8], [0xE2, 0x80, 0xA9], [0xE2, 0x80, 0xAF],
   [0xE2, 0x81, 0x9F],
   [0xE3, 0x80, 0x80]]

/-- Strip from the front of `s` every leading byte group that is an entry of
`table`, at most `fuel` times. -/
def trimLeading (table : List GoString) : Nat → GoString → GoString
  | 0, s => s
  | fuel + 1, s =>
    match table.find? (fun r => r.isPrefixOf s) with
    | some r => trimLeading table fuel (s.drop r.length)
    | none => s

/-- Model of `strings.TrimSpace(s)`: all leading and all trailing white
space runes removed.  A trailing rune is a leading one of the reversed
string, its encoding reversed.  Every entry of the table is at least one
byte long, so `s.length` rounds are enough. -/
def TrimSpace (s : GoString) : GoString :=
  let t := trimLeading spaceRunes s.length s
  (trimLeading (spaceRunes.map List.reverse) t.length t.reverse).reverse

/-! ## Data model (`main.go`, lines 25 to 100) -/

structure CPUMetrics where
  UsagePercent : List Float64
  CoreCount : Int
  Temperature : Float64
  deriving DecidableEq

structure MemoryMetrics where
  Total : Nat
  Used : Nat
  Free : Nat
  UsedPercent : Float64
  deriving DecidableEq

structure DiskMetrics where
  Path : GoString
  Total : Nat
  Used : Nat
  Free : Nat
  UsedPercent : Float64
  deriving DecidableEq

structure NetworkMetrics where
  BytesSent : Nat
  BytesRecv : Nat
  PacketsSent : Nat
  PacketsRecv : Nat
  deriving DecidableEq

structure ContainerInfo where
  ID : GoString
  Name : GoString
  State : GoString
  Status : GoString
  Image : GoString
  deriving DecidableEq

structure DockerMetrics where
  ContainerCount : Int
  RunningCount : Int
  Containers : List ContainerInfo
  deriving DecidableEq

structure KubernetesInfo where
  NodeName : GoString
  NodeLabels : List (GoString × GoString)
  IsARM : Bool
  IsAMD64 : Bool
  NodeRole : GoString
  deriving DecidableEq

structure PowerInfo where
  EstimatedWatts : Float64
  PowerEfficiency : GoString
  ArchitectureType : GoString
  deriving DecidableEq

structure HostInfo where
  Hostname : GoString
  OS : GoString
  Platform : GoString
  Uptime : Nat
  Architecture : GoString
  IsMultiArch : Bool
  Kubernetes : Option KubernetesInfo
  Power : PowerInfo
  deriving DecidableEq

structure SystemMetrics where
  Timestamp : Nat
  CPU : CPUMetrics
  Memory : MemoryMetrics
  Disk : List DiskMetrics
  Network : NetworkMetrics
  Docker : DockerMetrics
  Host : HostInfo
  deriving DecidableEq

/-! ## Collaborators -/

/-- The fields of `mem.VirtualMemoryStat` the program reads. -/
structure VirtualMemoryStat where
  Total : Nat
  Used : Nat
  Free : Nat
  UsedPercent : Float64
  deriving DecidableEq

/-- The field of `disk.PartitionStat` the program reads. -/
structure PartitionStat where
  Mountpoint : GoString
  deriving DecidableEq

/-- The fields of `disk.UsageStat` the program reads. -/
structure UsageStat where
  Total : Nat
  Used : Nat
  Free : Nat
  UsedPercent : Float64
  deriving DecidableEq

/-- The fields of `net.IOCountersStat` the program reads. -/
structure IOCountersStat where
  BytesSent : Nat
  BytesRecv : Nat
  PacketsSent : Nat
  PacketsRecv : Nat
  deriving DecidableEq

/-- The fields of `host.InfoStat` the program reads. -/
structure InfoStat where
  Hostname : GoString
  OS : GoString
  Platform : GoString
  Uptime : Nat
  deriving DecidableEq

/-- The fields of `types.Container` the program reads. -/
structure Container where
  ID : GoString
  Names : List GoString
  State : GoString
  Status : GoString
  Image : GoString
  deriving DecidableEq

/-- The container runtime client: what each of its calls answers. -/
structure DockerClient where
  ContainerList : Except GoError (List Container)
  ContainerStart : GoString → Option GoError
  ContainerStop : GoString → Int → Option GoError
  ContainerRestart : GoString → Int → Option GoError

/-- Everything the host answers during one collection. -/
structure World where
  /-- The value of `time.Now()`. -/
  now : Nat
  /-- The value of `runtime.GOARCH`. -/
  GOARCH : GoString
  /-- Outcome of `cpu.Percent(time.Second, true)`. -/
  cpuPercent : List Float64 × Option GoError
  /-- Outcome of `cpu.Counts(true)`. -/
  cpuCounts : Int × Option GoError
  /-- Outcome of `mem.VirtualMemory()`. -/
  virtualMemory : Option VirtualMemoryStat × Option GoError
  /-- Outcome of `disk.Partitions(false)`. -/
  partitions : List PartitionStat × Option GoError
  /-- Outcome of `disk.Usage(mountpoint)`. -/
  usage : GoString → Except GoError UsageStat
  /-- Outcome of `net.IOCounters(false)`. -/
  ioCounters : List IOCountersStat × Option GoError
  /-- Outcome of `host.Info()`. -/
  hostInfo : Option InfoStat × Option GoError
  /-- The value of `os.Getenv("NODE_NAME")`. -/
  envNodeName : GoString
  /-- Outcome of `kubectl get node -o name`. -/
  kubectlNodeName : Except GoError GoString
  /-- Outcome of `kubectl get node <name> -o jsonpath={.metadata.labels}`. -/
  kubectlLabels : GoString → Except GoError GoString
  /-- Outcome of `os.ReadFile("/sys/class/power_supply/BAT0/power_now")`. -/
  powerFile : Except GoError GoString

/-! ## `getArchitecture` and `getPowerInfo` (lines 108 to 119, 174 to 212) -/

/-- Embedding of `getArchitecture`, as a function of `runtime.GOARCH`. -/
def getArchitecture (GOARCH : GoString) : GoString :=
  if GOARCH = lit "amd64" then lit "amd64"
  else if GOARCH = lit "arm64" then lit "arm64"
  else if GOARCH = lit "arm" then lit "arm"
  else GOARCH

/-- Embedding of `getPowerInfo`, as a function of `runtime.GOARCH` and of the
outcome of reading the battery power file. -/
def getPowerInfo (GOARCH : GoString) (powerFile : Except GoError GoString) : PowerInfo :=
  let arch := getArchitecture GOARCH
  let table : Float64 × GoString × GoString :=
    if arch = lit "amd64" then (.dec 45.0, lit "medium", lit "Intel/AMD x86_64")
    else if arch = lit "arm64" then (.dec 7.0, lit "high", lit "ARM Cortex-A")
    else if arch = lit "arm" then (.dec 2.5, lit "ultra-high", lit "ARM Cortex-A (32-bit)")
    else (.dec 25.0, lit "unknown", lit "Unknown")
  -- the file is read and trimmed, and both branches of the test are empty
  let _unused : Unit :=
    match powerFile with
    | .ok content => if TrimSpace content ≠ [] then () else ()
    | .error _ => ()
  { EstimatedWatts := table.1, PowerEfficiency := table.2.1, ArchitectureType := table.2.2 }

/-! ## `getKubernetesInfo` (lines 121 to 172) -/

/-- The node name `getKubernetesInfo` settles on (lines 123 to 133): the
environment override, else the first line of the control-plane tool's answer
without its `node/` prefix, else the empty string. -/
def resolveNodeName (w : World) : GoString :=
  if w.envNodeName = [] then
    match w.kubectlNodeName with
    | .ok output =>
      match Split (TrimSpace output) 0x0A with
      | line :: _ => TrimPrefix line (lit "node/")
      | [] => []
    | .error _ => []
  else w.envNodeName

/-- The role chosen from the trimmed label text (lines 159 to 167). -/
def nodeRole (labelsStr : GoString) : GoString :=
  if Contains labelsStr (lit "master") || Contains labelsStr (lit "control-plane") then
    lit "master"
  else if Contains labelsStr (lit "edge") then lit "edge"
  else if Contains labelsStr (lit "storage") then lit "storage"
  else lit "worker"

/-- Embedding of `getKubernetesInfo`; `none` is the `nil` result. -/
def getKubernetesInfo (w : World) : Option KubernetesInfo :=
  let nodeName := resolveNodeName w
  if nodeName = [] then none
  else
    let k8sInfo : KubernetesInfo :=
      { NodeName := nodeName, NodeLabels := [], IsARM := false, IsAMD64 := false,
        NodeRole := [] }
    match w.kubectlLabels nodeName with
    | .error _ => some k8sInfo
    | .ok output =>
      let labelsStr := TrimSpace output
      if labelsStr = [] then some k8sInfo
      else
        let k8sInfo : KubernetesInfo :=
          if Contains labelsStr (lit "arch") then
            let arch := getArchitecture w.GOARCH
            { k8sInfo with
              NodeLabels := [(lit "arch", arch)]
              IsARM := decide (arch = lit "arm64") || decide (arch = lit "arm")
              IsAMD64 := decide (arch = lit "amd64") }
          else k8sInfo
        some { k8sInfo with NodeRole := nodeRole labelsStr }

/-! ## `collectMetrics` (lines 214 to 295) -/

/-- The loop over the partitions (lines 235 to 246); `acc` is `metrics.Disk`. -/
def diskLoop (usage : GoString → Except GoError UsageStat) :
    List PartitionStat → List DiskMetrics → List DiskMetrics
  | [], acc => acc
  | partition :: rest, acc =>
    match usage partition.Mountpoint with
    | .ok u =>
      diskLoop usage rest
        (acc ++ [{ Path := partition.Mountpoint, Total := u.Total, Used := u.Used,
                   Free := u.Free, UsedPercent := u.UsedPercent }])
    | .error _ => diskLoop usage rest acc

/-- The network block (lines 248 to 256); `cur` is `metrics.Network`. -/
def networkBlock ( netIO : List IOCountersStat) (cur : NetworkMetrics) : NetworkMetrics :=
  match netIO with
  | first :: _ =>
    { BytesSent := first.BytesSent, BytesRecv := first.BytesRecv,
      PacketsSent := first.PacketsSent, PacketsRecv := first.PacketsRecv }
  | [] => cur

/-- The loop over the containers (lines 262 to 274); `d` is `metrics.Docker`.
`container.ID[:12]` faults on an ID shorter than 12 bytes and
`container.Names[0]` on an empty name list. -/
def containerLoop : List Container → DockerMetrics → Except Panic DockerMetrics
  | [], d => .ok d
  | container :: rest, d =>
    if container.ID.length < 12 then .error .sliceBoundsOutOfRange
    else
      match container.Names with
      | [] => .error .indexOutOfRange
      | name :: _ =>
        let info : ContainerInfo :=
          { ID := container.ID.take 12, Name := name, State := container.State,
            Status := container.Status, Image := container.Image }
        let d := { d with Containers := d.Containers ++ [info] }
        let d := if container.State = lit "running" then
                   { d with RunningCount := d.RunningCount + 1 }
                 else d
        containerLoop rest d

/-- The Docker block (lines 258 to 276); `d` is `metrics.Docker`. -/
def dockerBlock (dockerClient : Option DockerClient) (d : DockerMetrics) :
    Except Panic DockerMetrics :=
  match dockerClient with
  | none => .ok d
  | some client =>
    match client.ContainerList with
    | .ok containers =>
      containerLoop containers { d with ContainerCount := (containers.length : Int) }
    | .error _ => .ok d

/-- Embedding of `collectMetrics`.  The result is the returned pair
`(*SystemMetrics, error)`, or the panic that ends the call. -/
def collectMetrics (w : World) (dockerClient : Option DockerClient) :
    Except Panic (Option SystemMetrics × Option GoError) :=
  let cpu : CPUMetrics :=
    { UsagePercent := w.cpuPercent.1, CoreCount := w.cpuCounts.1, Temperature := Float64.zero }
  -- `vmem.Total` dereferences the pointer returned by `mem.VirtualMemory()`
  match w.virtualMemory.1 with
  | none => .error .nilDereference
  | some vmem =>
    let memory : MemoryMetrics :=
      { Total := vmem.Total, Used := vmem.Used, Free := vmem.Free,
        UsedPercent := vmem.UsedPercent }
    let disk := diskLoop w.usage w.partitions.1 []
    let network := networkBlock w.ioCounters.1 ⟨0, 0, 0, 0⟩
    match dockerBlock dockerClient ⟨0, 0, []⟩ with
    | .error p => .error p
    | .ok docker =>
      let arch := getArchitecture w.GOARCH
      let k8sInfo := getKubernetesInfo w
      let powerInfo := getPowerInfo w.GOARCH w.powerFile
      -- `hostInfo.Hostname` dereferences the pointer returned by `host.Info()`
      match w.hostInfo.1 with
      | none => .error .nilDereference
      | some hostInfo =>
        let host : HostInfo :=
          { Hostname := hostInfo.Hostname, OS := hostInfo.OS, Platform := hostInfo.Platform,
            Uptime := hostInfo.Uptime, Architecture := arch,
            IsMultiArch :=
              match k8sInfo with
              | some k => k.IsARM || k.IsAMD64
              | none => false
            Kubernetes := k8sInfo, Power := powerInfo }
        .ok (some { Timestamp := w.now, CPU := cpu, Memory := memory, Disk := disk,
                    Network := network, Docker := docker, Host := host }, none)

/-! ## `handleContainerAction` (lines 325 to 365) -/

/-- The bound request body. -/
structure ActionRequest where
  ContainerID : GoString
  Action : GoString
  deriving DecidableEq

/-- A call made to the container runtime client. -/
inductive RuntimeCall where
  | start (id : GoString)
  | stop (id : GoString) (timeout : Int)
  | restart (id : GoString) (timeout : Int)
  deriving DecidableEq

/-- A JSON response: status code and the single key and value of its body. -/
structure Response where
  status : Nat
  key : GoString
  value : GoString
  deriving DecidableEq

/-- What one run of the handler did: the runtime calls it made, in order,
and the response it wrote, or the panic that ended it. -/
structure Handled where
  calls : List RuntimeCall
  result : Except Panic Response

/-- Embedding of `handleContainerAction`.  `bound` is the outcome of
`c.ShouldBindJSON(&req)`.  A method call on a nil client faults inside the
client library, before any request reaches the runtime. -/
def handleContainerAction (bound : Except GoError ActionRequest)
    (dockerClient : Option DockerClient) : Handled :=
  match bound with
  | .error err => { calls := [], result := .ok ⟨400, lit "error", err.msg⟩ }
  | .ok req =>
    if req.Action = lit "start" then
      match dockerClient with
      | none => { calls := [], result := .error .nilDereference }
      | some client =>
        match client.ContainerStart req.ContainerID with
        | some err =>
          { calls := [.start req.ContainerID], result := .ok ⟨500, lit "error", err.msg⟩ }
        | none =>
          { calls := [.start req.ContainerID], result := .ok ⟨200, lit "status", lit "success"⟩ }
    else if req.Action = lit "stop" then
      let timeout : Int := 10
      match dockerClient with
      | none => { calls := [], result := .error .nilDereference }
      | some client =>
        match client.ContainerStop req.ContainerID timeout with
        | some err =>
          { calls := [.stop req.ContainerID timeout],
            result := .ok ⟨500, lit "error", err.msg⟩ }
        | none =>
          { calls := [.stop req.ContainerID timeout],
            result := .ok ⟨200, lit "status", lit "success"⟩ }
    else if req.Action = lit "restart" then
      let timeout : Int := 10
      match dockerClient with
      | none => { calls := [], result := .error .nilDereference }
      | some client =>
        match client.ContainerRestart req.ContainerID timeout with
        | some err =>
          { calls := [.restart req.ContainerID timeout],
            result := .ok ⟨500, lit "error", err.msg⟩ }
        | none =>
          { calls := [.restart req.ContainerID timeout],
            result := .ok ⟨200, lit "status", lit "success"⟩ }
    else { calls := [], result := .ok ⟨400, lit "error", lit "invalid action"⟩ }

/-! ## The publisher loop of `handleWebSocket` (lines 308 to 322) -/

/-- What the surroundings answer at one tick of the ticker: the host and the
runtime client as they answer the `collectMetrics` call of this tick (`none`
for the client when the handler was handed a nil one), and what
`conn.WriteJSON` answers if it is called at this tick. -/
structure Tick where
  world : World
  dockerClient : Option DockerClient
  send : Option GoError

/-- The loop is running, or it is over and the connection is closed. -/
inductive Phase where
  | Connected
  | Disconnected
  deriving DecidableEq

/-- The state of one connection's loop together with what it has done so
far: how many times it called `collectMetrics`, the values it passed to
`conn.WriteJSON`, oldest first, and the panic that ended the handler, if one
did. -/
structure Publisher where
  phase : Phase
  collections : Nat
  sends : List (Option SystemMetrics)
  fault : Option Panic
  deriving DecidableEq

/-- One iteration of the `for` loop, run when the ticker fires.  The handler
has no `recover`: a panic inside `collectMetrics` unwinds it, the deferred
`conn.Close()` runs and the loop is over without a send.  A returned error is
logged and the loop goes on; a failed `WriteJSON` makes the handler return. -/
def Publisher.step (p : Publisher) (t : Tick) : Publisher :=
  match p.phase with
  | .Disconnected => p
  | .Connected =>
    match collectMetrics t.world t.dockerClient with
    | .error fault =>
      { p with phase := .Disconnected, collections := p.collections + 1, fault := some fault }
    | .ok (_, some _) => { p with collections := p.collections + 1 }
    | .ok (metrics, none) =>
      match t.send with
      | some _ =>
        { p with phase := .Disconnected, collections := p.collections + 1,
                 sends := p.sends ++ [metrics] }
      | none =>
        { p with collections := p.collections + 1, sends := p.sends ++ [metrics] }

/-- The loop right after the upgrade succeeded. -/
def Publisher.init : Publisher :=
  { phase := .Connected, collections := 0, sends := [], fault := none }

/-- The loop run over a sequence of ticks. -/
def Publisher.run (ticks : List Tick) : Publisher := ticks.foldl Publisher.step Publisher.init

/-! ## Definitions used to state the properties -/

/-- The answer to a runtime call: 200 with status: success when it returned
no error, 500 with the error message otherwise. -/
def actionResponse (outcome : Option GoError) : Response :=
  match outcome with
  | none => ⟨200, lit "status", lit "success"⟩
  | some err => ⟨500, lit "error", err.msg⟩

/-- The `Disk` entry of a partition: present when its usage read succeeded,
with the mountpoint as path and the values of the reading. -/
def diskEntry (usage : GoString → Except GoError UsageStat) (p : PartitionStat) :
    Option DiskMetrics :=
  match usage p.Mountpoint with
  | .ok u =>
    some { Path := p.Mountpoint, Total := u.Total, Used := u.Used, Free := u.Free,
           UsedPercent := u.UsedPercent }
  | .error _ => none

/-- The projection of one listed container: the first 12 bytes of its ID, its
first name, its state, status and image. -/
def containerEntry (x : Container) : ContainerInfo :=
  { ID := x.ID.take 12, Name := x.Names.headD [], State := x.State, Status := x.Status,
    Image := x.Image }

/-- Every listed container has an ID of at least 12 bytes and a name. -/
def wellFormedList (containers : List Container) : Bool :=
  containers.all (fun x => decide (12 ≤ x.ID.length) && !x.Names.isEmpty)

/-- The list query, when it is made and succeeds, answers a well-formed list. -/
def dockerWellFormed (dockerClient : Option DockerClient) : Bool :=
  match dockerClient with
  | none => true
  | some client =>
    match client.ContainerList with
    | .ok containers => wellFormedList containers
    | .error _ => true

/-- The memory read and the host read hand back a value (a non-nil pointer). -/
def hostReadsReturn (w : World) : Bool :=
  w.virtualMemory.1.isSome && w.hostInfo.1.isSome

/-- A byte that can belong to the encoding of a white space rune: an ASCII
white space byte or a byte of a multi-byte encoding. -/
def isSpaceByte (b : Nat) : Bool :=
  b == 0x09 || b == 0x0A || b == 0x0B || b == 0x0C || b == 0x0D || b == 0x20 || decide (0x80 ≤ b)

/-- The role named by the label text `s`, by substring matching with the
precedence master or control-plane, then edge, then storage, else worker. -/
def roleOf (s : GoString) : GoString :=
  if Contains s (lit "master") = true ∨ Contains s (lit "control-plane") = true then lit "master"
  else if Contains s (lit "edge") = true then lit "edge"
  else if Contains s (lit "storage") = true then lit "storage"
  else lit "worker"

/-- A host on which every telemetry read, the node identity lookup and the
battery file read fail, each failed read handing back its zero value. -/
def failingWorld : World :=
  { now := 0
    GOARCH := lit "amd64"
    cpuPercent := ([], some ⟨lit "cpu unavailable"⟩)
    cpuCounts := (0, some ⟨lit "cpu unavailable"⟩)
    virtualMemory := (none, some ⟨lit "meminfo unavailable"⟩)
    partitions := ([], some ⟨lit "mounts unavailable"⟩)
    usage := fun _ => .error ⟨lit "statfs failed"⟩
    ioCounters := ([], some ⟨lit "net unavailable"⟩)
    hostInfo := (none, some ⟨lit "hostname unavailable"⟩)
    envNodeName := []
    kubectlNodeName := .error ⟨lit "kubectl not found"⟩
    kubectlLabels := fun _ => .error ⟨lit "kubectl not found"⟩
    powerFile := .error ⟨lit "no such file"⟩ }

/-- A runtime client all of whose calls fail. -/
def failingClient : DockerClient :=
  { ContainerList := .error ⟨lit "daemon unreachable"⟩
    ContainerStart := fun _ => some ⟨lit "daemon unreachable"⟩
    ContainerStop := fun _ _ => some ⟨lit "daemon unreachable"⟩
    ContainerRestart := fun _ _ => some ⟨lit "daemon unreachable"⟩ }

/-- A host with two cores, three partitions (the usage read of `/boot`
fails) and one network interface. -/
def sampleWorld : World :=
  { now := 1700000000
    GOARCH := lit "arm64"
    cpuPercent := ([.dec 12.5, .dec 3.0], none)
    cpuCounts := (2, none)
    virtualMemory := (some ⟨8000, 3000, 5000, .dec 37.5⟩, none)
    partitions := ([⟨lit "/"⟩, ⟨lit "/boot"⟩, ⟨lit "/data"⟩], none)
    usage := fun mp =>
      if mp = lit "/" then .ok ⟨100, 40, 60, .dec 40.0⟩
      else if mp = lit "/data" then .ok ⟨500, 50, 450, .dec 10.0⟩
      else .error ⟨lit "permission denied"⟩
    ioCounters := ([⟨10, 20, 1, 2⟩], none)
    hostInfo := (some ⟨lit "pi4", lit "linux", lit "raspbian", 3600⟩, none)
    envNodeName := lit "pi4"
    kubectlNodeName := .error ⟨lit "kubectl not found"⟩
    kubectlLabels := fun _ => .ok (lit " role=edge-storage\n")
    powerFile := .error ⟨lit "no such file"⟩ }

/-- Two listed containers, one running and one exited. -/
def sampleContainers : List Container :=
  [ { ID := lit "0123456789abcdef0123", Names := [lit "/web", lit "/alias"],
      State := lit "running", Status := lit "Up 2 hours", Image := lit "nginx" },
    { ID := lit "fedcba9876543210ffff", Names := [lit "/db"],
      State := lit "exited", Status := lit "Exited (0)", Image := lit "postgres" } ]

/-- A runtime client whose list query answers `sampleContainers` and whose
other calls succeed. -/
def sampleClient : DockerClient :=
  { ContainerList := .ok sampleContainers
    ContainerStart := fun _ => none
    ContainerStop := fun _ _ => none
    ContainerRestart := fun _ _ => none }

/-- The send of this tick is attempted and fails. -/
def Tick.sendFails (t : Tick) : Bool :=
  match collectMetrics t.world t.dockerClient, t.send with
  | .ok (_, none), some _ => true
  | _, _ => false

/-- The collection of this tick ends in a panic. -/
def Tick.faults (t : Tick) : Bool :=
  match collectMetrics t.world t.dockerClient with
  | .error _ => true
  | .ok _ => false

/-- The value handed to `WriteJSON` at this tick, if the collection returned
without an error. -/
def Tick.payload (t : Tick) : Option (Option SystemMetrics) :=
  match collectMetrics t.world t.dockerClient with
  | .ok (metrics, none) => some metrics
  | _ => none

/-- This tick ends the loop: its send fails or its collection panics. -/
def Tick.endsLoop (t : Tick) : Bool := t.sendFails || t.faults

/-- The ticks up to and including the first one that ends the loop (all of
them when none does). -/
def upToFirstEnd : List Tick → List Tick
  | [] => []
  | t :: rest => if t.endsLoop then [t] else t :: upToFirstEnd rest

/-- Three ticks on each of which `WriteJSON` would succeed: the sample host,
then a tick at which every host read fails, then the sample host again. -/
def faultingTicks : List Tick :=
  [ ⟨sampleWorld, some sampleClient, none⟩,
    ⟨failingWorld, some sampleClient, none⟩,
    ⟨sampleWorld, some sampleClient, none⟩ ]

/-- Four ticks on the sample host; the send of the third one fails. -/
def sampleTicks : List Tick :=
  [ ⟨sampleWorld, some sampleClient, none⟩,
    ⟨sampleWorld, none, none⟩,
    ⟨sampleWorld, some failingClient, some ⟨lit "broken pipe"⟩⟩,
    ⟨sampleWorld, some sampleClient, none⟩ ]

/-! ## Properties -/

/-! ### Power estimate -/

/-- C2: for every architecture string `a` the power estimate is the table
entry of `a` alone: 45.0 W, medium, Intel/AMD x86_64 for `amd64`; 7.0 W, high,
ARM Cortex-A for `arm64`; 2.5 W, ultra-high, ARM Cortex-A (32-bit) for `arm`;
25.0 W, unknown, Unknown for anything else.  The outcome `f` of reading the
battery power file (absent, unreadable, empty, any content) plays no part,
and `getArchitecture` hands the architecture string through unchanged. -/
theorem getPowerInfo_table (a : GoString) (f : Except GoError GoString) :
    getArchitecture a = a ∧
    getPowerInfo a f =
      (if a = lit "amd64" then
        { EstimatedWatts := .dec 45.0, PowerEfficiency := lit "medium",
          ArchitectureType := lit "Intel/AMD x86_64" }
      else if a = lit "arm64" then
        { EstimatedWatts := .dec 7.0, PowerEfficiency := lit "high",
          ArchitectureType := lit "ARM Cortex-A" }
      else if a = lit "arm" then
        { EstimatedWatts := .dec 2.5, PowerEfficiency := lit "ultra-high",
          ArchitectureType := lit "ARM Cortex-A (32-bit)" }
      else
        { EstimatedWatts := .dec 25.0, PowerEfficiency := lit "unknown",
          ArchitectureType := lit "Unknown" }) := by
  have harch : getArchitecture a = a := by
    unfold getArchitecture
    split_ifs with h1 h2 h3
    · exact h1.symm
    · exact h2.symm
    · exact h3.symm
    · rfl
  refine ⟨harch, ?_⟩
  unfold getPowerInfo
  simp only [harch]
  split_ifs <;> rfl

/-! ### Container action handler -/

/-- C3: a bound request whose action is none of `start`, `stop`, `restart`
is answered 400 with body error: invalid action, whatever the container id
and whatever the client (a nil one included), and no runtime call is made. -/
theorem handleContainerAction_invalid (req : ActionRequest) (dockerClient : Option DockerClient)
    (hstart : req.Action ≠ lit "start") (hstop : req.Action ≠ lit "stop")
    (hrestart : req.Action ≠ lit "restart") :
    (handleContainerAction (.ok req) dockerClient).calls = [] ∧
    (handleContainerAction (.ok req) dockerClient).result =
      .ok ⟨400, lit "error", lit "invalid action"⟩ := by
  simp [handleContainerAction, hstart, hstop, hrestart]

/-- C3 at the actions `launch`, the empty string and `Stop`, without a client. -/
theorem handleContainerAction_invalid_witness :
    ((handleContainerAction (.ok ⟨lit "abc", lit "launch"⟩) none).calls = [] ∧
     (handleContainerAction (.ok ⟨lit "abc", lit "launch"⟩) none).result =
      .ok ⟨400, lit "error", lit "invalid action"⟩) ∧
    ((handleContainerAction (.ok ⟨lit "abc", []⟩) none).calls = [] ∧
     (handleContainerAction (.ok ⟨lit "abc", []⟩) none).result =
      .ok ⟨400, lit "error", lit "invalid action"⟩) ∧
    ((handleContainerAction (.ok ⟨lit "abc", lit "Stop"⟩) none).calls = [] ∧
     (handleContainerAction (.ok ⟨lit "abc", lit "Stop"⟩) none).result =
      .ok ⟨400, lit "error", lit "invalid action"⟩) :=
  ⟨handleContainerAction_invalid ⟨lit "abc", lit "launch"⟩ none
      (by decide) (by decide) (by decide),
   handleContainerAction_invalid ⟨lit "abc", []⟩ none (by decide) (by decide) (by decide),
   handleContainerAction_invalid ⟨lit "abc", lit "Stop"⟩ none
      (by decide) (by decide) (by decide)⟩

/-- With a runtime client `c` present, for every container id each of the
actions `start`, `stop`, `restart` makes exactly one runtime call, of its own
kind, on that id, with grace period 10 for `stop` and `restart`; the response
is 200 status: success exactly when that call returned no error, and 500
with the error message of the call otherwise. -/
theorem handleContainerAction_dispatch (c : DockerClient) (id : GoString) :
    ((handleContainerAction (.ok ⟨id, lit "start"⟩) (some c)).calls = [.start id] ∧
     (handleContainerAction (.ok ⟨id, lit "start"⟩) (some c)).result =
       .ok (actionResponse (c.ContainerStart id))) ∧
    ((handleContainerAction (.ok ⟨id, lit "stop"⟩) (some c)).calls = [.stop id 10] ∧
     (handleContainerAction (.ok ⟨id, lit "stop"⟩) (some c)).result =
       .ok (actionResponse (c.ContainerStop id 10))) ∧
    ((handleContainerAction (.ok ⟨id, lit "restart"⟩) (some c)).calls = [.restart id 10] ∧
     (handleContainerAction (.ok ⟨id, lit "restart"⟩) (some c)).result =
       .ok (actionResponse (c.ContainerRestart id 10))) ∧
    (∀ outcome : Option GoError,
      (actionResponse outcome = ⟨200, lit "status", lit "success"⟩ ↔ outcome = none) ∧
      (∀ err, outcome = some err → actionResponse outcome = ⟨500, lit "error", err.msg⟩)) := by
  have h1 : lit "stop" ≠ lit "start" := by decide
  have h2 : lit "restart" ≠ lit "start" := by decide
  have h3 : lit "restart" ≠ lit "stop" := by decide
  refine ⟨?_, ?_, ?_, ?_⟩
  · cases h : c.ContainerStart id <;> simp [handleContainerAction, actionResponse, h]
  · cases h : c.ContainerStop id 10 <;> simp [handleContainerAction, actionResponse, h, h1]
  · cases h : c.ContainerRestart id 10 <;>
      simp [handleContainerAction, actionResponse, h, h2, h3]
  · intro outcome
    cases outcome with
    | none => simp [actionResponse]
    | some e => simp [actionResponse]

/-- C4, at a nil runtime client (the one `main` keeps when the client could
not be initialised): for every container id, each of `start`, `stop` and
`restart` calls a method on the nil client, which the handler, unlike
`collectMetrics`, does not test for; the handler ends in a nil dereference,
no call reaches the runtime and no response, neither the 200 nor the 500 of
the claim, is written. -/
theorem handleContainerAction_nil_client (id : GoString) :
    ((handleContainerAction (.ok ⟨id, lit "start"⟩) none).calls = [] ∧
     (handleContainerAction (.ok ⟨id, lit "start"⟩) none).result = .error .nilDereference) ∧
    ((handleContainerAction (.ok ⟨id, lit "stop"⟩) none).calls = [] ∧
     (handleContainerAction (.ok ⟨id, lit "stop"⟩) none).result = .error .nilDereference) ∧
    ((handleContainerAction (.ok ⟨id, lit "restart"⟩) none).calls = [] ∧
     (handleContainerAction (.ok ⟨id, lit "restart"⟩) none).result = .error .nilDereference) := by
  have h1 : lit "stop" ≠ lit "start" := by decide
  have h2 : lit "restart" ≠ lit "start" := by decide
  have h3 : lit "restart" ≠ lit "stop" := by decide
  simp [handleContainerAction, h1, h2, h3]

/-- C5, as stated, fails: a body that cannot be bound, the binder reporting
`EOF`, is not answered with the body error: invalid action. -/
theorem handleContainerAction_malformed_counterexample :
    (handleContainerAction (.error ⟨lit "EOF"⟩) none).result ≠
      .ok ⟨400, lit "error", lit "invalid action"⟩ := by
  simp [handleContainerAction]
  decide

/-- C5, amended: a body that cannot be bound is answered 400 with body
error: m, where m is the message of the binding error, and no runtime call
is made. -/
theorem handleContainerAction_malformed (err : GoError) (dockerClient : Option DockerClient) :
    (handleContainerAction (.error err) dockerClient).calls = [] ∧
    (handleContainerAction (.error err) dockerClient).result =
      .ok ⟨400, lit "error", err.msg⟩ := by
  simp [handleContainerAction]

/-! ### Snapshot assembly -/

theorem diskLoop_eq (usage : GoString → Except GoError UsageStat) (P : List PartitionStat)
    (acc : List DiskMetrics) :
    diskLoop usage P acc = acc ++ P.filterMap (diskEntry usage) := by
  induction P generalizing acc with
  | nil => simp [diskLoop]
  | cons p rest ih =>
    cases h : usage p.Mountpoint with
    | ok u => simp [diskLoop, diskEntry, h, ih]
    | error e => simp [diskLoop, diskEntry, h, ih]

theorem containerLoop_eq (L : List Container) (d : DockerMetrics)
    (hwf : wellFormedList L = true) :
    containerLoop L d =
      .ok { ContainerCount := d.ContainerCount
            RunningCount := d.RunningCount + (L.countP (fun x => x.State = lit "running") : Nat)
            Containers := d.Containers ++ L.map containerEntry } := by
  induction L generalizing d with
  | nil => simp [containerLoop]
  | cons x rest ih =>
    simp only [wellFormedList, List.all_cons, Bool.and_eq_true, decide_eq_true_eq,
      Bool.not_eq_true'] at hwf
    obtain ⟨⟨hid, hnames⟩, hrest⟩ := hwf
    have hrest' : wellFormedList rest = true := by simpa [wellFormedList] using hrest
    cases hn : x.Names with
    | nil => simp [hn] at hnames
    | cons name others =>
      have hlt : ¬ x.ID.length < 12 := by omega
      by_cases hrun : x.State = lit "running"
      · simp [containerLoop, hlt, hn, hrun, ih _ hrest', containerEntry, List.countP_cons]
        omega
      · simp [containerLoop, hlt, hn, hrun, ih _ hrest', containerEntry, List.countP_cons]

/-- With host reads that hand back values and a Docker block that does not
fault, `collectMetrics` returns a snapshot and a nil error. -/
theorem collectMetrics_ok (w : World) (dockerClient : Option DockerClient)
    (vmem : VirtualMemoryStat) (hostInfo : InfoStat) (docker : DockerMetrics)
    (hv : w.virtualMemory.1 = some vmem) (hh : w.hostInfo.1 = some hostInfo)
    (hd : dockerBlock dockerClient ⟨0, 0, []⟩ = .ok docker) :
    collectMetrics w dockerClient =
      .ok (some
        { Timestamp := w.now
          CPU := { UsagePercent := w.cpuPercent.1, CoreCount := w.cpuCounts.1,
                   Temperature := Float64.zero }
          Memory := { Total := vmem.Total, Used := vmem.Used, Free := vmem.Free,
                      UsedPercent := vmem.UsedPercent }
          Disk := w.partitions.1.filterMap (diskEntry w.usage)
          Network := networkBlock w.ioCounters.1 ⟨0, 0, 0, 0⟩
          Docker := docker
          Host :=
            { Hostname := hostInfo.Hostname, OS := hostInfo.OS, Platform := hostInfo.Platform,
              Uptime := hostInfo.Uptime, Architecture := getArchitecture w.GOARCH,
              IsMultiArch :=
                match getKubernetesInfo w with
                | some k => k.IsARM || k.IsAMD64
                | none => false
              Kubernetes := getKubernetesInfo w
              Power := getPowerInfo w.GOARCH w.powerFile } }, none) := by
  simp [collectMetrics, hv, hh, hd, diskLoop_eq]

theorem dockerBlock_ok (dockerClient : Option DockerClient)
    (hwf : dockerWellFormed dockerClient = true) :
    ∃ docker, dockerBlock dockerClient ⟨0, 0, []⟩ = .ok docker := by
  cases dockerClient with
  | none => exact ⟨_, rfl⟩
  | some c =>
    cases hl : c.ContainerList with
    | error e => exact ⟨⟨0, 0, []⟩, by simp [dockerBlock, hl]⟩
    | ok L =>
      have : wellFormedList L = true := by simpa [dockerWellFormed, hl] using hwf
      exact ⟨_, by simp only [dockerBlock, hl]; exact containerLoop_eq L _ this⟩

theorem containerLoop_fault (L : List Container) (d : DockerMetrics)
    (hwf : wellFormedList L = false) : ∃ p, containerLoop L d = .error p := by
  induction L generalizing d with
  | nil => simp [wellFormedList] at hwf
  | cons x rest ih =>
    by_cases hid : x.ID.length < 12
    · exact ⟨.sliceBoundsOutOfRange, by simp [containerLoop, hid]⟩
    · cases hn : x.Names with
      | nil => exact ⟨.indexOutOfRange, by simp [containerLoop, hid, hn]⟩
      | cons name others =>
        have hrest : wellFormedList rest = false := by
          have h12 : 12 ≤ x.ID.length := by omega
          simpa [wellFormedList, h12, hn] using hwf
        simp only [containerLoop, hid, hn, if_false]
        exact ih _ hrest

/-- The call returns a snapshot exactly when the memory and host reads hand
back values and the listed containers, if any, are well formed. -/
theorem collectMetrics_returns_iff (w : World) (dockerClient : Option DockerClient) :
    (∃ s, collectMetrics w dockerClient = .ok (some s, none)) ↔
      (hostReadsReturn w = true ∧ dockerWellFormed dockerClient = true) := by
  constructor
  · rintro ⟨s, hs⟩
    cases hv : w.virtualMemory.1 with
    | none => simp [collectMetrics, hv] at hs
    | some vmem =>
      cases hd : dockerBlock dockerClient ⟨0, 0, []⟩ with
      | error p => simp [collectMetrics, hv, hd] at hs
      | ok docker =>
        cases hh : w.hostInfo.1 with
        | none => simp [collectMetrics, hv, hd, hh] at hs
        | some hostInfo =>
          refine ⟨by simp [hostReadsReturn, hv, hh], ?_⟩
          cases dockerClient with
          | none => rfl
          | some c =>
            cases hl : c.ContainerList with
            | error e => simp [dockerWellFormed, hl]
            | ok L =>
              cases hw : wellFormedList L with
              | true => simp [dockerWellFormed, hl, hw]
              | false =>
                obtain ⟨p, hp⟩ := containerLoop_fault L
                  { ContainerCount := (L.length : Int), RunningCount := 0, Containers := [] } hw
                simp [dockerBlock, hl, hp] at hd
  · rintro ⟨hhost, hwf⟩
    simp only [hostReadsReturn, Bool.and_eq_true, Option.isSome_iff_exists] at hhost
    obtain ⟨⟨vmem, hv⟩, ⟨hostInfo, hh⟩⟩ := hhost
    obtain ⟨docker, hd⟩ := dockerBlock_ok dockerClient hwf
    exact ⟨_, collectMetrics_ok w dockerClient vmem hostInfo docker hv hh hd⟩

/-- C1, at the input where every read fails: the memory read hands back a
nil pointer with its error, `collectMetrics` discards the error and reads
`vmem.Total`, and the call ends in a nil dereference instead of returning a
snapshot. -/
theorem collectMetrics_all_reads_fail :
    failingWorld.virtualMemory = (none, some ⟨lit "meminfo unavailable"⟩) ∧
    failingWorld.hostInfo = (none, some ⟨lit "hostname unavailable"⟩) ∧
    collectMetrics failingWorld (some failingClient) = .error .nilDereference ∧
    collectMetrics failingWorld none = .error .nilDereference := by
  refine ⟨rfl, rfl, ?_, ?_⟩ <;> simp [collectMetrics, failingWorld]

/-- C6: when the host reads hand back values, and the runtime client is
absent or its list query fails, `collectMetrics` returns a snapshot with a
nil error whose Docker part has container count 0, running count 0 and no
containers. -/
theorem collectMetrics_docker_unavailable (w : World) (dockerClient : Option DockerClient)
    (hhost : hostReadsReturn w = true)
    (hdocker : dockerClient = none ∨
      ∃ c e, dockerClient = some c ∧ c.ContainerList = .error e) :
    ∃ s, collectMetrics w dockerClient = .ok (some s, none) ∧
      s.Docker.ContainerCount = 0 ∧ s.Docker.RunningCount = 0 ∧ s.Docker.Containers = [] := by
  simp only [hostReadsReturn, Bool.and_eq_true, Option.isSome_iff_exists] at hhost
  obtain ⟨⟨vmem, hv⟩, ⟨hostInfo, hh⟩⟩ := hhost
  have hd : dockerBlock dockerClient ⟨0, 0, []⟩ = .ok ⟨0, 0, []⟩ := by
    rcases hdocker with h | ⟨c, e, h, hl⟩
    · subst h; rfl
    · subst h; simp [dockerBlock, hl]
  exact ⟨_, collectMetrics_ok w dockerClient vmem hostInfo _ hv hh hd, rfl, rfl, rfl⟩

/-- C6 on the sample host, once without a client and once with a client whose
list query fails. -/
theorem collectMetrics_docker_unavailable_witness :
    (hostReadsReturn sampleWorld = true ∧
      ∃ s, collectMetrics sampleWorld none = .ok (some s, none) ∧
        s.Docker.ContainerCount = 0 ∧ s.Docker.RunningCount = 0 ∧ s.Docker.Containers = []) ∧
    (failingClient.ContainerList = .error ⟨lit "daemon unreachable"⟩ ∧
      ∃ s, collectMetrics sampleWorld (some failingClient) = .ok (some s, none) ∧
        s.Docker.ContainerCount = 0 ∧ s.Docker.RunningCount = 0 ∧ s.Docker.Containers = []) :=
  ⟨⟨rfl, collectMetrics_docker_unavailable sampleWorld none rfl (Or.inl rfl)⟩,
   ⟨rfl, collectMetrics_docker_unavailable sampleWorld (some failingClient) rfl
      (Or.inr ⟨failingClient, ⟨lit "daemon unreachable"⟩, rfl, rfl⟩)⟩⟩

/-- C7: when the list query succeeds with a list `L` in which every container
has an ID of at least 12 bytes and at least one name (and the host reads hand
back values, so that a snapshot is returned), the container count is the
length of `L`, the running count is the number of containers of `L` whose
state is exactly `running`, which is at most the container count, and the
containers are the entries of `L`, in order, each projected to the first 12
bytes of its ID, its first name, its state, its status and its image. -/
theorem collectMetrics_inventory (w : World) (c : DockerClient) (L : List Container)
    (hhost : hostReadsReturn w = true) (hlist : c.ContainerList = .ok L)
    (hwf : ∀ x ∈ L, 12 ≤ x.ID.length ∧ x.Names ≠ []) :
    ∃ s, collectMetrics w (some c) = .ok (some s, none) ∧
      s.Docker.ContainerCount = (L.length : Int) ∧
      s.Docker.RunningCount = (L.countP (fun x => x.State = lit "running") : Nat) ∧
      s.Docker.RunningCount ≤ s.Docker.ContainerCount ∧
      s.Docker.Containers =
        L.map (fun x =>
          { ID := x.ID.take 12, Name := x.Names.headD [], State := x.State,
            Status := x.Status, Image := x.Image }) := by
  simp only [hostReadsReturn, Bool.and_eq_true, Option.isSome_iff_exists] at hhost
  obtain ⟨⟨vmem, hv⟩, ⟨hostInfo, hh⟩⟩ := hhost
  have hwf' : wellFormedList L = true := by
    simp only [wellFormedList, List.all_eq_true, Bool.and_eq_true, decide_eq_true_eq,
      Bool.not_eq_true', List.isEmpty_eq_false]
    intro x hx
    exact hwf x hx
  have hd := containerLoop_eq L
    { ContainerCount := (L.length : Int), RunningCount := 0, Containers := [] } hwf'
  have hd' : dockerBlock (some c) ⟨0, 0, []⟩ =
      .ok { ContainerCount := (L.length : Int)
            RunningCount := 0 + (L.countP (fun x => x.State = lit "running") : Nat)
            Containers := [] ++ L.map containerEntry } := by
    simp only [dockerBlock, hlist]; exact hd
  refine ⟨_, collectMetrics_ok w (some c) vmem hostInfo _ hv hh hd', rfl, ?_, ?_, ?_⟩
  · simp
  · simp only [zero_add, Nat.cast_le]
    exact List.countP_le_length _
  · simp [containerEntry]

/-- C7 on the sample host with the two sample containers. -/
theorem collectMetrics_inventory_witness :
    hostReadsReturn sampleWorld = true ∧ sampleClient.ContainerList = .ok sampleContainers ∧
    (∀ x ∈ sampleContainers, 12 ≤ x.ID.length ∧ x.Names ≠ []) ∧
    ∃ s, collectMetrics sampleWorld (some sampleClient) = .ok (some s, none) ∧
      s.Docker.ContainerCount = (sampleContainers.length : Int) ∧
      s.Docker.RunningCount =
        (sampleContainers.countP (fun x => x.State = lit "running") : Nat) ∧
      s.Docker.RunningCount ≤ s.Docker.ContainerCount ∧
      s.Docker.Containers =
        sampleContainers.map (fun x =>
          { ID := x.ID.take 12, Name := x.Names.headD [], State := x.State,
            Status := x.Status, Image := x.Image }) :=
  ⟨rfl, rfl, by decide,
   collectMetrics_inventory sampleWorld sampleClient sampleContainers rfl rfl (by decide)⟩

/-- C8: whenever a snapshot is returned (the memory and host reads hand back
values and the listed containers are well formed), then for every partition
list and every outcome of the usage reads the snapshot is returned with a nil
error and its `Disk` sequence is the partition list filtered, in order, to
the partitions whose usage read succeeded, each with its mountpoint as path
and the total, used, free and used-percent values of its reading; a partition
whose usage read fails contributes nothing. -/
theorem collectMetrics_disk (w : World) (dockerClient : Option DockerClient)
    (hhost : hostReadsReturn w = true) (hwf : dockerWellFormed dockerClient = true) :
    ∃ s, collectMetrics w dockerClient = .ok (some s, none) ∧
      s.Disk = w.partitions.1.filterMap (fun p =>
        match w.usage p.Mountpoint with
        | .ok u =>
          some { Path := p.Mountpoint, Total := u.Total, Used := u.Used, Free := u.Free,
                 UsedPercent := u.UsedPercent }
        | .error _ => none) := by
  simp only [hostReadsReturn, Bool.and_eq_true, Option.isSome_iff_exists] at hhost
  obtain ⟨⟨vmem, hv⟩, ⟨hostInfo, hh⟩⟩ := hhost
  obtain ⟨docker, hd⟩ := dockerBlock_ok dockerClient hwf
  exact ⟨_, collectMetrics_ok w dockerClient vmem hostInfo docker hv hh hd, rfl⟩

/-- C8 on the sample host, whose `/boot` usage read fails: the snapshot has
the entries of `/` and `/data`, in that order. -/
theorem collectMetrics_disk_witness :
    hostReadsReturn sampleWorld = true ∧ dockerWellFormed (some sampleClient) = true ∧
    ∃ s, collectMetrics sampleWorld (some sampleClient) = .ok (some s, none) ∧
      s.Disk = sampleWorld.partitions.1.filterMap (fun p =>
        match sampleWorld.usage p.Mountpoint with
        | .ok u =>
          some { Path := p.Mountpoint, Total := u.Total, Used := u.Used, Free := u.Free,
                 UsedPercent := u.UsedPercent }
        | .error _ => none) :=
  ⟨rfl, by decide, collectMetrics_disk sampleWorld (some sampleClient) rfl (by decide)⟩

/-! ### Node role -/

theorem isPrefixOf_split (r s : GoString) (h : r.isPrefixOf s = true) :
    s = r ++ s.drop r.length := by
  induction r generalizing s with
  | nil => simp
  | cons a r ih =>
    cases s with
    | nil => simp [List.isPrefixOf] at h
    | cons b s =>
      simp only [List.isPrefixOf, Bool.and_eq_true, beq_iff_eq] at h
      obtain ⟨hab, hrs⟩ := h
      subst hab
      simpa using ih s hrs

theorem trimLeading_split (table : List GoString)
    (htable : ∀ r ∈ table, ∀ b ∈ r, isSpaceByte b = true) (fuel : Nat) (s : GoString) :
    ∃ pre, s = pre ++ trimLeading table fuel s ∧ ∀ b ∈ pre, isSpaceByte b = true := by
  induction fuel generalizing s with
  | zero => exact ⟨[], by simp [trimLeading]⟩
  | succ n ih =>
    cases hf : table.find? (fun r => r.isPrefixOf s) with
    | none => exact ⟨[], by simp [trimLeading, hf]⟩
    | some r =>
      have hmem : r ∈ table := List.mem_of_find?_eq_some hf
      have hpre : r.isPrefixOf s = true := by
        have := List.find?_some hf
        simpa using this
      obtain ⟨pre, hsplit, hall⟩ := ih (s.drop r.length)
      refine ⟨r ++ pre, ?_, ?_⟩
      · simp only [trimLeading, hf, List.append_assoc]
        rw [← hsplit]
        exact isPrefixOf_split r s hpre
      · intro b hb
        rcases List.mem_append.mp hb with h | h
        · exact htable r hmem b h
        · exact hall b h

/-- The fuel `s.length` is enough: after `trimLeading` no entry of the table
starts what is left. -/
theorem trimLeading_done (table : List GoString) (hne : ∀ r ∈ table, r ≠ [])
    (fuel : Nat) (s : GoString) (hfuel : s.length ≤ fuel) :
    table.find? (fun r => r.isPrefixOf (trimLeading table fuel s)) = none := by
  induction fuel generalizing s with
  | zero =>
    have hs : s = [] := List.length_eq_zero.mp (Nat.le_zero.mp hfuel)
    subst hs
    rw [List.find?_eq_none]
    intro r hr
    cases r with
    | nil => exact absurd rfl (hne [] hr)
    | cons a r => simp [trimLeading, List.isPrefixOf]
  | succ n ih =>
    cases hf : table.find? (fun r => r.isPrefixOf s) with
    | none => simp [trimLeading, hf]
    | some r =>
      have hmem : r ∈ table := List.mem_of_find?_eq_some hf
      have hpre : r.isPrefixOf s = true := by
        have := List.find?_some hf
        simpa using this
      have hlen : s.length = r.length + (s.drop r.length).length := by
        conv_lhs => rw [isPrefixOf_split r s hpre]
        simp
      have hpos : 0 < r.length := List.length_pos.mpr (hne r hmem)
      simp only [trimLeading, hf]
      exact ih (s.drop r.length) (by omega)

theorem spaceRunes_bytes : ∀ r ∈ spaceRunes, ∀ b ∈ r, isSpaceByte b = true := by decide

theorem spaceRunes_reverse_bytes :
    ∀ r ∈ spaceRunes.map List.reverse, ∀ b ∈ r, isSpaceByte b = true := by decide

/-- What `TrimSpace` removes are bytes of white space encodings, in front
and behind. -/
theorem TrimSpace_split (s : GoString) :
    ∃ pre post, s = pre ++ TrimSpace s ++ post ∧
      (∀ b ∈ pre, isSpaceByte b = true) ∧ (∀ b ∈ post, isSpaceByte b = true) := by
  obtain ⟨pre, h1, hpre⟩ := trimLeading_split spaceRunes spaceRunes_bytes s.length s
  obtain ⟨tsop, h2, hpost⟩ :=
    trimLeading_split (spaceRunes.map List.reverse) spaceRunes_reverse_bytes
      (trimLeading spaceRunes s.length s).length (trimLeading spaceRunes s.length s).reverse
  refine ⟨pre, tsop.reverse, ?_, hpre, ?_⟩
  · have h3 := congrArg List.reverse h2
    simp only [List.reverse_reverse, List.reverse_append] at h3
    simp only [TrimSpace, List.append_assoc]
    rw [← h3]
    exact h1
  · intro b hb
    exact hpost b (List.mem_reverse.mp hb)

/-- The model of `strings.Contains` decides occurrence as a contiguous block. -/
theorem Contains_iff (s sub : GoString) :
    Contains s sub = true ↔ ∃ a b, s = a ++ sub ++ b := by
  induction s with
  | nil =>
    cases sub with
    | nil => simp [Contains]
    | cons c sub => simp [Contains, List.isPrefixOf]
  | cons x s ih =>
    simp only [Contains, Bool.or_eq_true, ih]
    constructor
    · rintro (h | ⟨a, b, h⟩)
      · exact ⟨[], (x :: s).drop sub.length, by simpa using isPrefixOf_split sub (x :: s) h⟩
      · exact ⟨x :: a, b, by simp [h]⟩
    · rintro ⟨a, b, h⟩
      cases a with
      | nil =>
        left
        rw [h]
        simp
      | cons y a =>
        right
        simp only [List.cons_append, List.cons.injEq] at h
        exact ⟨a, b, by simpa using h.2⟩

theorem occurs_strip_front (pre t sub : GoString) (c : Nat) (rest : GoString)
    (hsub : sub = c :: rest) (hc : isSpaceByte c = false)
    (hpre : ∀ b ∈ pre, isSpaceByte b = true)
    (h : ∃ a b, pre ++ t = a ++ sub ++ b) : ∃ a b, t = a ++ sub ++ b := by
  induction pre with
  | nil => simpa using h
  | cons x pre ih =>
    obtain ⟨a, b, hab⟩ := h
    apply ih (fun b hb => hpre b (List.mem_cons_of_mem _ hb))
    cases a with
    | nil =>
      subst hsub
      simp only [List.cons_append, List.nil_append, List.cons.injEq] at hab
      have hx := hpre x (List.mem_cons_self _ _)
      rw [hab.1, hc] at hx
      exact absurd hx (by decide)
    | cons y a =>
      simp only [List.cons_append, List.cons.injEq] at hab
      exact ⟨a, b, by simpa using hab.2⟩

theorem occurs_strip_back (t post sub : GoString) (c : Nat) (rest : GoString)
    (hsub : sub = rest ++ [c]) (hc : isSpaceByte c = false)
    (hpost : ∀ b ∈ post, isSpaceByte b = true)
    (h : ∃ a b, t ++ post = a ++ sub ++ b) : ∃ a b, t = a ++ sub ++ b := by
  obtain ⟨a, b, hab⟩ := h
  have hrev : post.reverse ++ t.reverse = b.reverse ++ sub.reverse ++ a.reverse := by
    have := congrArg List.reverse hab
    simpa [List.append_assoc] using this
  obtain ⟨a', b', h'⟩ := occurs_strip_front post.reverse t.reverse sub.reverse c rest.reverse
    (by simp [hsub]) hc (fun x hx => hpost x (List.mem_reverse.mp hx)) ⟨_, _, hrev⟩
  refine ⟨b'.reverse, a'.reverse, ?_⟩
  have := congrArg List.reverse h'
  simpa [List.append_assoc] using this

/-- Trimming white space does not change whether a word occurs, for a word
that neither starts nor ends with a white space byte. -/
theorem Contains_TrimSpace (s sub : GoString) (c : Nat) (rest : GoString) (d : Nat)
    (front : GoString) (hhead : sub = c :: rest) (hlast : sub = front ++ [d])
    (hc : isSpaceByte c = false) (hd : isSpaceByte d = false) :
    Contains (TrimSpace s) sub = Contains s sub := by
  obtain ⟨pre, post, hs, hpre, hpost⟩ := TrimSpace_split s
  rw [Bool.eq_iff_iff, Contains_iff, Contains_iff]
  constructor
  · rintro ⟨a, b, h⟩
    refine ⟨pre ++ a, b ++ post, ?_⟩
    rw [hs, h]
    simp [List.append_assoc]
  · intro h
    rw [hs] at h
    have h1 : ∃ a b, TrimSpace s ++ post = a ++ sub ++ b := by
      apply occurs_strip_front pre (TrimSpace s ++ post) sub c rest hhead hc hpre
      simpa [List.append_assoc] using h
    exact occurs_strip_back (TrimSpace s) post sub d front hlast hd hpost h1

theorem nodeRole_TrimSpace (s : GoString) : nodeRole (TrimSpace s) = roleOf s := by
  have h1 : Contains (TrimSpace s) (lit "master") = Contains s (lit "master") :=
    Contains_TrimSpace s _ 0x6D (lit "aster") 0x72 (lit "maste") (by decide) (by decide)
      (by decide) (by decide)
  have h2 : Contains (TrimSpace s) (lit "control-plane") = Contains s (lit "control-plane") :=
    Contains_TrimSpace s _ 0x63 (lit "ontrol-plane") 0x65 (lit "control-plan") (by decide)
      (by decide) (by decide) (by decide)
  have h3 : Contains (TrimSpace s) (lit "edge") = Contains s (lit "edge") :=
    Contains_TrimSpace s _ 0x65 (lit "dge") 0x65 (lit "edg") (by decide) (by decide)
      (by decide) (by decide)
  have h4 : Contains (TrimSpace s) (lit "storage") = Contains s (lit "storage") :=
    Contains_TrimSpace s _ 0x73 (lit "torage") 0x65 (lit "storag") (by decide) (by decide)
      (by decide) (by decide)
  simp only [nodeRole, roleOf, h1, h2, h3, h4, Bool.or_eq_true]

/-- C9: for every resolved (non-empty) node name and every answer `s` of the
label query that is non-empty after trimming white space, `getKubernetesInfo`
returns an info record for that node whose role is `master` if `s` contains
`master` or `control-plane`, otherwise `edge` if `s` contains `edge`,
otherwise `storage` if `s` contains `storage`, otherwise `worker`. -/
theorem getKubernetesInfo_role (w : World) (s : GoString)
    (hname : resolveNodeName w ≠ [])
    (hlabels : w.kubectlLabels (resolveNodeName w) = .ok s)
    (hnonempty : TrimSpace s ≠ []) :
    ∃ k, getKubernetesInfo w = some k ∧ k.NodeName = resolveNodeName w ∧
      k.NodeRole =
        (if Contains s (lit "master") = true ∨ Contains s (lit "control-plane") = true then
          lit "master"
        else if Contains s (lit "edge") = true then lit "edge"
        else if Contains s (lit "storage") = true then lit "storage"
        else lit "worker") ∧
      (k.NodeRole = lit "master" ∨ k.NodeRole = lit "edge" ∨ k.NodeRole = lit "storage" ∨
        k.NodeRole = lit "worker") := by
  have hrole := nodeRole_TrimSpace s
  have hfour : roleOf s = lit "master" ∨ roleOf s = lit "edge" ∨ roleOf s = lit "storage" ∨
      roleOf s = lit "worker" := by
    unfold roleOf
    split_ifs <;> simp
  have hk : ∃ k, getKubernetesInfo w = some k ∧ k.NodeName = resolveNodeName w ∧
      k.NodeRole = nodeRole (TrimSpace s) := by
    simp only [getKubernetesInfo, hname, hlabels, hnonempty, if_false]
    by_cases harch : Contains (TrimSpace s) (lit "arch") = true
    · simp only [harch, if_true]
      exact ⟨_, rfl, rfl, rfl⟩
    · simp only [harch]
      exact ⟨_, rfl, rfl, rfl⟩
  obtain ⟨k, hget, hnode, hr⟩ := hk
  refine ⟨k, hget, hnode, ?_, ?_⟩
  · rw [hr, hrole]; rfl
  · rw [hr, hrole]; exact hfour

/-- C9 on the sample host, whose label text mentions both `edge` and
`storage`: the role is `edge`. -/
theorem getKubernetesInfo_role_witness :
    resolveNodeName sampleWorld ≠ [] ∧
    sampleWorld.kubectlLabels (resolveNodeName sampleWorld) =
      .ok (lit " role=edge-storage\n") ∧
    TrimSpace (lit " role=edge-storage\n") ≠ [] ∧
    ∃ k, getKubernetesInfo sampleWorld = some k ∧ k.NodeName = resolveNodeName sampleWorld ∧
      k.NodeRole =
        (if Contains (lit " role=edge-storage\n") (lit "master") = true ∨
            Contains (lit " role=edge-storage\n") (lit "control-plane") = true then
          lit "master"
        else if Contains (lit " role=edge-storage\n") (lit "edge") = true then lit "edge"
        else if Contains (lit " role=edge-storage\n") (lit "storage") = true then lit "storage"
        else lit "worker") ∧
      (k.NodeRole = lit "master" ∨ k.NodeRole = lit "edge" ∨ k.NodeRole = lit "storage" ∨
        k.NodeRole = lit "worker") :=
  ⟨by decide, rfl, by decide,
   getKubernetesInfo_role sampleWorld (lit " role=edge-storage\n") (by decide) rfl (by decide)⟩

/-! ### Publisher loop -/

/-- The error `collectMetrics` returns is always nil. -/
theorem collectMetrics_error_nil (w : World) (dockerClient : Option DockerClient)
    (r : Option SystemMetrics) (e : GoError) :
    collectMetrics w dockerClient ≠ .ok (r, some e) := by
  intro h
  cases hv : w.virtualMemory.1 with
  | none => simp [collectMetrics, hv] at h
  | some vmem =>
    cases hd : dockerBlock dockerClient ⟨0, 0, []⟩ with
    | error p => simp [collectMetrics, hv, hd] at h
    | ok docker =>
      cases hh : w.hostInfo.1 with
      | none => simp [collectMetrics, hv, hd, hh] at h
      | some hostInfo => simp [collectMetrics, hv, hd, hh] at h

theorem foldl_step_disconnected (ticks : List Tick) (n : Nat)
    (sends : List (Option SystemMetrics)) (fault : Option Panic) :
    ticks.foldl Publisher.step ⟨.Disconnected, n, sends, fault⟩ =
      ⟨.Disconnected, n, sends, fault⟩ := by
  induction ticks with
  | nil => rfl
  | cons t rest ih => simpa [Publisher.step] using ih

theorem foldl_step_connected (ticks : List Tick) (n : Nat)
    (sends : List (Option SystemMetrics)) :
    (ticks.foldl Publisher.step ⟨.Connected, n, sends, none⟩).phase =
        (if ticks.any Tick.endsLoop then .Disconnected else .Connected) ∧
    (ticks.foldl Publisher.step ⟨.Connected, n, sends, none⟩).collections =
        n + (upToFirstEnd ticks).length ∧
    (ticks.foldl Publisher.step ⟨.Connected, n, sends, none⟩).sends =
        sends ++ (upToFirstEnd ticks).filterMap Tick.payload := by
  induction ticks generalizing n sends with
  | nil => simp [upToFirstEnd]
  | cons t rest ih =>
    obtain ⟨world, client, send⟩ := t
    rcases hc : collectMetrics world client with p | ⟨metrics, err⟩
    · simp [Publisher.step, hc, foldl_step_disconnected, upToFirstEnd, Tick.endsLoop,
        Tick.sendFails, Tick.faults, Tick.payload]
    · cases err with
      | some e => exact absurd hc (collectMetrics_error_nil world client metrics e)
      | none =>
        cases send with
        | some e =>
          simp [Publisher.step, hc, foldl_step_disconnected, upToFirstEnd, Tick.endsLoop,
            Tick.sendFails, Tick.faults, Tick.payload]
        | none =>
          obtain ⟨h1, h2, h3⟩ := ih (n + 1) (sends ++ [metrics])
          simp only [List.foldl_cons, Publisher.step, hc]
          refine ⟨?_, ?_, ?_⟩
          · rw [h1]
            simp [Tick.endsLoop, Tick.sendFails, Tick.faults, hc]
          · rw [h2]
            simp [upToFirstEnd, Tick.endsLoop, Tick.sendFails, Tick.faults, hc]
            omega
          · rw [h3]
            simp [upToFirstEnd, Tick.endsLoop, Tick.sendFails, Tick.faults, Tick.payload, hc]

/-- What the loop does over any sequence of ticks: it calls `collectMetrics`
once for each tick up to and including the first tick whose send fails or
whose collection panics, and never after it; it passes to `WriteJSON`, in
order, what the collections of that stretch returned; and it is over exactly
when some tick's send failed or some tick's collection panicked. -/
theorem publisher_run_trace (ticks : List Tick) :
    (Publisher.run ticks).collections = (upToFirstEnd ticks).length ∧
    (Publisher.run ticks).sends = (upToFirstEnd ticks).filterMap Tick.payload ∧
    ((Publisher.run ticks).phase = .Disconnected ↔ ∃ t ∈ ticks, t.endsLoop = true) := by
  obtain ⟨h1, h2, h3⟩ := foldl_step_connected ticks 0 []
  refine ⟨?_, ?_, ?_⟩
  · simpa [Publisher.run, Publisher.init] using h2
  · simpa [Publisher.run, Publisher.init] using h3
  · simp only [Publisher.run, Publisher.init, h1]
    by_cases hany : ticks.any Tick.endsLoop = true
    · simp only [hany, if_true, true_iff]
      simpa using hany
    · simp only [hany]
      simp only [Bool.not_eq_true] at hany
      constructor
      · intro hc; cases hc
      · rintro ⟨t, ht, hf⟩
        have : ticks.any Tick.endsLoop = true := List.any_eq_true.mpr ⟨t, ht, hf⟩
        rw [hany] at this
        cases this

/-- When no collection panics (at every tick the memory and host reads hand
back values and the listed containers are well formed), the loop is over
exactly when the send of some tick failed. -/
theorem publisher_run_no_fault (ticks : List Tick)
    (h : ∀ t ∈ ticks, hostReadsReturn t.world = true ∧ dockerWellFormed t.dockerClient = true) :
    (Publisher.run ticks).phase = .Disconnected ↔ ∃ t ∈ ticks, t.send ≠ none := by
  have hends : ∀ t ∈ ticks, (t.endsLoop = true ↔ t.send ≠ none) := by
    intro t ht
    obtain ⟨s, hs⟩ := (collectMetrics_returns_iff t.world t.dockerClient).mpr (h t ht)
    cases hsend : t.send <;> simp [Tick.endsLoop, Tick.sendFails, Tick.faults, hs, hsend]
  rw [(publisher_run_trace ticks).2.2]
  constructor
  · rintro ⟨t, ht, he⟩
    exact ⟨t, ht, (hends t ht).mp he⟩
  · rintro ⟨t, ht, he⟩
    exact ⟨t, ht, (hends t ht).mpr he⟩

/-- The loop on the sample ticks: three collections and three sends, the
loop over at the third tick, whose send fails, and no panic. -/
theorem publisher_run_sample :
    (Publisher.run sampleTicks).phase = .Disconnected ∧
    (Publisher.run sampleTicks).collections = 3 ∧
    (Publisher.run sampleTicks).sends.length = 3 ∧
    (Publisher.run sampleTicks).fault = none := by
  refine ⟨?_, ?_, ?_, ?_⟩ <;> rfl

/-- C10, at three ticks on each of which the send would succeed and the
second of which has a failing memory read: the first snapshot is sent, the
second collection panics, and the loop is over (Disconnected) after two
collections and one send although no send failed; the third tick is never
collected. -/
theorem publisher_collection_fault :
    (∀ t ∈ faultingTicks, t.send = none) ∧
    (∀ t ∈ faultingTicks, t.sendFails = false) ∧
    (Publisher.run faultingTicks).phase = .Disconnected ∧
    (Publisher.run faultingTicks).fault = some .nilDereference ∧
    (Publisher.run faultingTicks).collections = 2 ∧
    (Publisher.run faultingTicks).sends.length = 1 := by
  refine ⟨?_, ?_, ?_, ?_, ?_, ?_⟩
  · simp [faultingTicks]
  · simp [faultingTicks, Tick.sendFails]
  all_goals rfl

end Dashboard
